import Mathlib

/-!
Shallow embedding of the mcpax update/installation orchestration engine
(src/mcpax/core/{models,api,downloader,manager}.py) and proofs about it.

Conventions used throughout:
* Python `str` is Lean `String`; `pathlib.Path` values are modelled by their
  (already normalised) string form.
* Python `datetime` values are modelled by `DateTime` (a record of numeric
  fields) where serialisation matters, and by a `Nat` tick count where only
  the total order matters (`date_published`).
* Python dicts are modelled as insertion-ordered association lists; a dict
  assignment is `dictInsert` (replace in place, else append).
* Fallible collaborators (the Modrinth HTTP client, the network, the OS) are
  passed in as explicit oracle functions returning `Except String _`; an
  oracle's error string stands for `str(exception)` of the exception the real
  collaborator raises.
* The cooperative-concurrency fan-out (`asyncio.gather`, which returns results
  in input order) is modelled by a sequential fold in task order.
-/

namespace Mcpax

/-! ## Enums (models.py) -/

/-- models.Loader -/
inductive Loader where
  | fabric
  | forge
  | neoforge
  | quilt
deriving DecidableEq, Repr

/-- the `.value` string of a Loader member -/
def Loader.value : Loader → String
  | .fabric => "fabric"
  | .forge => "forge"
  | .neoforge => "neoforge"
  | .quilt => "quilt"

/-- models.ProjectType -/
inductive ProjectType where
  | mod
  | shader
  | resourcepack
deriving DecidableEq, Repr

/-- the `.value` string of a ProjectType member -/
def ProjectType.value : ProjectType → String
  | .mod => "mod"
  | .shader => "shader"
  | .resourcepack => "resourcepack"

/-- `ProjectType(s)`: enum lookup by value, `none` models the ValueError. -/
def ProjectType.ofValue? (s : String) : Option ProjectType :=
  if s = "mod" then some .mod
  else if s = "shader" then some .shader
  else if s = "resourcepack" then some .resourcepack
  else none

/-- models.ReleaseChannel -/
inductive ReleaseChannel where
  | release
  | beta
  | alpha
deriving DecidableEq, Repr

/-- models.InstallStatus -/
inductive InstallStatus where
  | not_installed
  | installed
  | outdated
  | not_compatible
  | check_failed
deriving DecidableEq, Repr

/-! ## String helpers -/

/-- Python `str.lower()` (character-wise lowering, as `String.map Char.toLower`). -/
def lower (s : String) : String := String.mk (s.data.map Char.toLower)

/-- split a character list on a separator character (the model of
`str.split(sep)`); always returns at least one (possibly empty) chunk -/
def splitOnCharAux : List Char → Char → List (List Char)
  | [], _ => [[]]
  | x :: xs, c =>
    match splitOnCharAux xs c with
    | [] => [[]]
    | h :: t => if x = c then [] :: h :: t else (x :: h) :: t

/-- Python `s[:n]` -/
def strTake (s : String) (n : Nat) : String := String.mk (s.data.take n)

/-- Python `PurePath.name`: the final path component. -/
def pathName (p : String) : String :=
  String.mk ((splitOnCharAux p.data '/').getLastD p.data)

/-- Python `dir / name` on paths (both sides already normalised). -/
def pJoin (dir name : String) : String := dir ++ "/" ++ name

/-! ## Data models (models.py), restricted to the fields the core uses -/

/-- models.ProjectFile -/
structure ProjectFile where
  url : String
  filename : String
  size : Nat
  hashes : List (String × String)
  primary : Bool
deriving DecidableEq, Repr

/-- models.ProjectVersion.  `date_published` is a datetime used only through
its total order, modelled as a tick count. -/
structure ProjectVersion where
  id : String
  project_id : String
  version_number : String
  version_type : ReleaseChannel
  game_versions : List String
  loaders : List String
  files : List ProjectFile
  date_published : Nat
deriving DecidableEq, Repr

/-- a UTC wall-clock instant, the model of Python `datetime` where its
serialised form matters -/
structure DateTime where
  year : Nat
  month : Nat
  day : Nat
  hour : Nat
  minute : Nat
  second : Nat
deriving DecidableEq, Repr

/-- models.InstalledFile -/
structure InstalledFile where
  slug : String
  project_type : ProjectType
  filename : String
  version_id : String
  version_number : String
  sha512 : String
  installed_at : DateTime
  file_path : String
deriving DecidableEq, Repr

/-- models.StateFile; `files` is the slug-keyed insertion-ordered dict. -/
structure StateFile where
  version : Nat := 1
  files : List (String × InstalledFile) := []
deriving DecidableEq, Repr

/-- models.ProjectConfig -/
structure ProjectConfig where
  slug : String
  version : Option String := none
  channel : ReleaseChannel := .release
deriving DecidableEq, Repr

/-- models.AppConfig -/
structure AppConfig where
  minecraft_version : String
  loader : Loader
  minecraft_dir : String
  mods_dir : Option String := none
  shaders_dir : Option String := none
  resourcepacks_dir : Option String := none
  max_concurrent_downloads : Nat := 5
  verify_hash : Bool := true
deriving DecidableEq, Repr

/-- models.UpdateCheckResult -/
structure UpdateCheckResult where
  slug : String
  status : InstallStatus
  current_version : Option String
  current_file : Option InstalledFile
  latest_version : Option String
  latest_version_id : Option String := none
  latest_file : Option ProjectFile
  error : Option String := none
deriving DecidableEq, Repr

/-- models.DownloadTask -/
structure DownloadTask where
  url : String
  dest : String
  expected_hash : Option String
  slug : String
  version_number : String
deriving DecidableEq, Repr

/-- models.DownloadResult -/
structure DownloadResult where
  task : DownloadTask
  success : Bool
  file_path : Option String
  error : Option String
deriving DecidableEq, Repr

/-- models.UpdateResult -/
structure UpdateResult where
  successful : List String
  failed : List (String × String)
  backed_up : List String
deriving DecidableEq, Repr

/-! ## Dict helpers -/

/-- `d.get(k, default)` on a string-valued dict -/
def dictGet (d : List (String × String)) (k default : String) : String :=
  (d.lookup k).getD default

/-- `d[k] = v` on a dict: replace in place, else append at the end. -/
def dictInsert {β : Type} : List (String × β) → String → β → List (String × β)
  | [], k, v => [(k, v)]
  | (a, b) :: t, k, v => if a = k then (k, v) :: t else (a, b) :: dictInsert t k v

/-- dict lookup for a list that may carry several writes for one key, the
later write winning (dict overwrite semantics). -/
def dictLookupLast {β : Type} : List (String × β) → String → Option β
  | [], _ => none
  | (a, b) :: t, k =>
    match dictLookupLast t k with
    | some v => some v
    | none => if a = k then some b else none

/-! ## Compatibility resolver (api.py) -/

/-- the `channel_order` dict in `filter_compatible_versions` -/
def channel_order : ReleaseChannel → Nat
  | .release => 0
  | .beta => 1
  | .alpha => 2

/-- the three `continue` guards of the loop in
`ModrinthClient.filter_compatible_versions`, as one keep-predicate -/
def isCompatible (minecraft_version : String) (loader : Loader)
    (channel : ReleaseChannel) (v : ProjectVersion) : Bool :=
  v.game_versions.contains minecraft_version
    && v.loaders.any (fun name => lower loader.value == lower name)
    && decide (channel_order v.version_type ≤ channel_order channel)

/-- stable insertion into a list already sorted by `date_published`
descending; an element inserted from the left goes before equals. -/
def insertByDateDesc (v : ProjectVersion) :
    List ProjectVersion → List ProjectVersion
  | [] => [v]
  | w :: ws =>
    if w.date_published ≤ v.date_published then v :: w :: ws
    else w :: insertByDateDesc v ws

/-- `compatible.sort(key=lambda v: v.date_published, reverse=True)`:
Python `list.sort` is a stable sort, and a stable descending sort is uniquely
determined by its input, so this stable insertion sort is its model. -/
def sortByDateDesc : List ProjectVersion → List ProjectVersion
  | [] => []
  | v :: vs => insertByDateDesc v (sortByDateDesc vs)

/-- ModrinthClient.filter_compatible_versions -/
def filter_compatible_versions (versions : List ProjectVersion)
    (minecraft_version : String) (loader : Loader)
    (channel : ReleaseChannel) : List ProjectVersion :=
  sortByDateDesc (versions.filter (isCompatible minecraft_version loader channel))

/-- ModrinthClient.get_latest_compatible_version
(`compatible[0] if compatible else None`) -/
def get_latest_compatible_version (versions : List ProjectVersion)
    (minecraft_version : String) (loader : Loader)
    (channel : ReleaseChannel) : Option ProjectVersion :=
  (filter_compatible_versions versions minecraft_version loader channel).head?

/-- Spec-side formalisation of "the version with the latest `published_at`,
ties broken by input order": the first element of the list attaining the
maximal `date_published`. -/
def firstLatest : List ProjectVersion → Option ProjectVersion
  | [] => none
  | v :: vs =>
    match firstLatest vs with
    | none => some v
    | some w => if v.date_published < w.date_published then some w else some v

/-! ### Resolver lemmas -/

theorem insertByDateDesc_perm (v : ProjectVersion) (l : List ProjectVersion) :
    List.Perm (insertByDateDesc v l) (v :: l) := by
  induction l with
  | nil => simp [insertByDateDesc]
  | cons w ws ih =>
    simp only [insertByDateDesc]
    split
    · exact List.Perm.refl _
    · exact (List.Perm.cons w ih).trans (List.Perm.swap v w ws)

theorem sortByDateDesc_perm (l : List ProjectVersion) :
    List.Perm (sortByDateDesc l) l := by
  induction l with
  | nil => simp [sortByDateDesc]
  | cons v vs ih =>
    exact (insertByDateDesc_perm v (sortByDateDesc vs)).trans (List.Perm.cons v ih)

theorem head?_insertByDateDesc (v : ProjectVersion) (l : List ProjectVersion) :
    (insertByDateDesc v l).head? =
      match l.head? with
      | none => some v
      | some w =>
        if w.date_published ≤ v.date_published then some v else some w := by
  cases l with
  | nil => simp [insertByDateDesc]
  | cons w ws =>
    simp only [insertByDateDesc]
    split
    · simp_all
    · simp only [List.head?_cons]
      rw [if_neg (by assumption)]

theorem head?_sortByDateDesc (l : List ProjectVersion) :
    (sortByDateDesc l).head? = firstLatest l := by
  induction l with
  | nil => simp [sortByDateDesc, firstLatest]
  | cons v vs ih =>
    simp only [sortByDateDesc, firstLatest, head?_insertByDateDesc, ih]
    cases h : firstLatest vs with
    | none => simp
    | some w =>
      dsimp only
      rcases Nat.lt_or_ge v.date_published w.date_published with hlt | hge
      · rw [if_pos hlt, if_neg (by omega)]
      · rw [if_neg (by omega : ¬ v.date_published < w.date_published),
          if_pos (by omega : w.date_published ≤ v.date_published)]

theorem firstLatest_eq_none_iff (l : List ProjectVersion) :
    firstLatest l = none ↔ l = [] := by
  cases l with
  | nil => simp [firstLatest]
  | cons v vs =>
    simp only [firstLatest]
    constructor
    · intro h
      cases hf : firstLatest vs <;> rw [hf] at h <;> simp_all
      split at h <;> simp_all
    · intro h
      exact absurd h (by simp)

/-- C2: `filter_compatible_versions` keeps exactly the versions supporting the
game version and (case-insensitively) the loader whose channel rank is at most
the ceiling's rank, and `get_latest_compatible_version` returns the kept
version with the latest `published_at`, ties broken by input order; it returns
`none` exactly when the kept set is empty. -/
theorem c2_select_latest_compatible (versions : List ProjectVersion)
    (minecraft_version : String) (loader : Loader) (channel : ReleaseChannel) :
    List.Perm (filter_compatible_versions versions minecraft_version loader channel)
        (versions.filter (isCompatible minecraft_version loader channel))
    ∧ (∀ v : ProjectVersion,
        v ∈ filter_compatible_versions versions minecraft_version loader channel ↔
          v ∈ versions ∧ minecraft_version ∈ v.game_versions
            ∧ (∃ name ∈ v.loaders, lower loader.value = lower name)
            ∧ channel_order v.version_type ≤ channel_order channel)
    ∧ get_latest_compatible_version versions minecraft_version loader channel
        = firstLatest (versions.filter (isCompatible minecraft_version loader channel))
    ∧ (get_latest_compatible_version versions minecraft_version loader channel = none
        ↔ versions.filter (isCompatible minecraft_version loader channel) = []) := by
  refine ⟨sortByDateDesc_perm _, ?_, ?_, ?_⟩
  · intro v
    rw [filter_compatible_versions, (sortByDateDesc_perm _).mem_iff, List.mem_filter]
    refine and_congr_right fun _ => ?_
    simp only [isCompatible, Bool.and_eq_true, List.any_eq_true, beq_iff_eq,
      decide_eq_true_eq, List.contains, List.elem_eq_mem, and_assoc]
  · rw [get_latest_compatible_version, filter_compatible_versions,
      head?_sortByDateDesc]
  · rw [get_latest_compatible_version, filter_compatible_versions,
      head?_sortByDateDesc, firstLatest_eq_none_iff]

/-! ## Update planner (manager.py)

The remote gateway (`ModrinthClient.get_versions`) is passed in as an oracle
`fetchVersions : String → Except String (List ProjectVersion)`; its error
string stands for `str(e)` of the raised exception.  The state file has been
loaded already and is passed as a `StateFile` value. -/

/-- ProjectManager.get_installed_file (after `_load_state`): `state.files.get(slug)` -/
def get_installed_file (state : StateFile) (slug : String) : Option InstalledFile :=
  state.files.lookup slug

/-- ProjectManager.needs_update -/
def needs_update (installed : InstalledFile) (latest : Option ProjectFile) : Bool :=
  match latest with
  | none => false
  | some l => lower installed.sha512 != lower (dictGet l.hashes "sha512" "")

/-- the `next((f for f in latest.files if f.primary), latest.files[0] if latest.files else None)`
expression used by `_check_single_update` and `get_install_status` -/
def primaryFile (files : List ProjectFile) : Option ProjectFile :=
  match files.find? (fun f => f.primary) with
  | some f => some f
  | none => files.head?

/-- the CHECK_FAILED result built in `check_updates`'s `except` arm -/
def checkFailedResult (slug msg : String) : UpdateCheckResult :=
  { slug := slug, status := .check_failed, current_version := none,
    current_file := none, latest_version := none, latest_version_id := none,
    latest_file := none, error := some msg }

/-- ProjectManager._check_single_update -/
def check_single_update (fetchVersions : String → Except String (List ProjectVersion))
    (cfg : AppConfig) (state : StateFile) (project : ProjectConfig) :
    Except String UpdateCheckResult :=
  let installed := get_installed_file state project.slug
  match fetchVersions project.slug with
  | .error e => .error e
  | .ok versions =>
    match get_latest_compatible_version versions cfg.minecraft_version cfg.loader
        project.channel with
    | none =>
      .ok { slug := project.slug, status := .not_compatible,
            current_version := installed.map (fun f => f.version_number),
            current_file := installed, latest_version := none,
            latest_version_id := none, latest_file := none, error := none }
    | some latest =>
      let pf := primaryFile latest.files
      let status :=
        match installed with
        | none => InstallStatus.not_installed
        | some inst => if needs_update inst pf then .outdated else .installed
      .ok { slug := project.slug, status := status,
            current_version := installed.map (fun f => f.version_number),
            current_file := installed,
            latest_version := some latest.version_number,
            latest_version_id := some latest.id, latest_file := pf,
            error := none }

/-- ProjectManager.check_updates: the per-slug loop with its
`except Exception` arm -/
def check_updates (fetchVersions : String → Except String (List ProjectVersion))
    (cfg : AppConfig) (state : StateFile) :
    List ProjectConfig → List UpdateCheckResult
  | [] => []
  | p :: ps =>
    (match check_single_update fetchVersions cfg state p with
     | .ok r => r
     | .error e => checkFailedResult p.slug e)
      :: check_updates fetchVersions cfg state ps

/-- ProjectManager.get_install_status.  `onDisk` models `Path.exists()`;
an oracle error models the caught `(APIError, httpx.HTTPError)` family. -/
def get_install_status (fetchVersions : String → Except String (List ProjectVersion))
    (cfg : AppConfig) (state : StateFile) (onDisk : String → Bool)
    (slug : String) (project_config : Option ProjectConfig) : InstallStatus :=
  match get_installed_file state slug with
  | none => .not_installed
  | some installed =>
    if onDisk installed.file_path = false then .not_installed
    else
      match fetchVersions slug with
      | .error _ => .check_failed
      | .ok versions =>
        let channel :=
          match project_config with
          | some pc => pc.channel
          | none => ReleaseChannel.release
        match get_latest_compatible_version versions cfg.minecraft_version
            cfg.loader channel with
        | none => .not_compatible
        | some latest =>
          match primaryFile latest.files with
          | some pf =>
            if lower installed.sha512 != lower (dictGet pf.hashes "sha512" "")
            then .outdated else .installed
          | none => .installed

/-! ### Planner lemmas -/

theorem lower_eq_empty_iff (s : String) : lower s = "" ↔ s = "" := by
  cases s with
  | mk data =>
    constructor
    · intro h
      have hd : data.map Char.toLower = [] := congrArg String.data h
      simp only [List.map_eq_nil_iff] at hd
      rw [hd]
    · intro h
      rw [h]
      rfl

theorem check_single_update_slug
    (fetchVersions : String → Except String (List ProjectVersion))
    (cfg : AppConfig) (state : StateFile) (project : ProjectConfig)
    (r : UpdateCheckResult)
    (h : check_single_update fetchVersions cfg state project = .ok r) :
    r.slug = project.slug := by
  rw [check_single_update] at h
  split at h
  · exact absurd h (by simp)
  · split at h
    all_goals
      injection h with h
      rw [← h]

/-- C3: with a successful remote fetch, `_check_single_update` classifies
NOT_COMPATIBLE with all target fields null when the resolver returns `none`;
NOT_INSTALLED when there is no installed record; OUTDATED exactly when the
lower-cased installed sha512 differs from the lower-cased primary-file sha512,
and INSTALLED exactly when they agree. -/
theorem c3_planner_classification
    (fetchVersions : String → Except String (List ProjectVersion))
    (cfg : AppConfig) (state : StateFile) (project : ProjectConfig)
    (versions : List ProjectVersion)
    (hfetch : fetchVersions project.slug = .ok versions) :
    (get_latest_compatible_version versions cfg.minecraft_version cfg.loader
        project.channel = none →
      ∃ r, check_single_update fetchVersions cfg state project = .ok r
        ∧ r.status = .not_compatible ∧ r.latest_version = none
        ∧ r.latest_version_id = none ∧ r.latest_file = none)
    ∧ (∀ latest, get_latest_compatible_version versions cfg.minecraft_version
          cfg.loader project.channel = some latest →
        (get_installed_file state project.slug = none →
          ∃ r, check_single_update fetchVersions cfg state project = .ok r
            ∧ r.status = .not_installed)
        ∧ (∀ inst pf hv, get_installed_file state project.slug = some inst →
            primaryFile latest.files = some pf →
            pf.hashes.lookup "sha512" = some hv →
            ∃ r, check_single_update fetchVersions cfg state project = .ok r
              ∧ (r.status = .outdated ↔ lower inst.sha512 ≠ lower hv)
              ∧ (r.status = .installed ↔ lower inst.sha512 = lower hv))) := by
  constructor
  · intro hnone
    have hstat : check_single_update fetchVersions cfg state project = .ok
        { slug := project.slug, status := .not_compatible,
          current_version := (get_installed_file state project.slug).map
            (fun f => f.version_number),
          current_file := get_installed_file state project.slug,
          latest_version := none, latest_version_id := none,
          latest_file := none, error := none } := by
      rw [check_single_update, hfetch]
      simp only [hnone]
    exact ⟨_, hstat, rfl, rfl, rfl, rfl⟩
  · intro latest hlatest
    constructor
    · intro hinst
      have hstat : check_single_update fetchVersions cfg state project = .ok
          { slug := project.slug, status := .not_installed,
            current_version := none, current_file := none,
            latest_version := some latest.version_number,
            latest_version_id := some latest.id,
            latest_file := primaryFile latest.files, error := none } := by
        rw [check_single_update, hfetch]
        simp only [hlatest, hinst, Option.map_none']
      exact ⟨_, hstat, rfl⟩
    · intro inst pf hv hinst hpf hhash
      have hstat : check_single_update fetchVersions cfg state project = .ok
          { slug := project.slug,
            status := if lower inst.sha512 != lower hv then .outdated else .installed,
            current_version := some inst.version_number,
            current_file := some inst,
            latest_version := some latest.version_number,
            latest_version_id := some latest.id,
            latest_file := some pf, error := none } := by
        rw [check_single_update, hfetch]
        simp only [hlatest, hinst, hpf, needs_update, dictGet, hhash, Option.getD,
          Option.map_some']
      refine ⟨_, hstat, ?_, ?_⟩ <;>
        by_cases hne : lower inst.sha512 = lower hv <;>
          simp [hne]

/-- C4: check_updates returns one result per declaration, in declaration
order; an exception from checking one slug is folded per-slug into a
CHECK_FAILED result whose error is the exception's string form, and a
successful check is returned as-is. -/
theorem c4_per_slug_check_failed
    (fetchVersions : String → Except String (List ProjectVersion))
    (cfg : AppConfig) (state : StateFile) (projects : List ProjectConfig) :
    (check_updates fetchVersions cfg state projects).length = projects.length
    ∧ (∀ p r, (p, r) ∈ projects.zip (check_updates fetchVersions cfg state projects) →
        r.slug = p.slug
        ∧ (∀ e, check_single_update fetchVersions cfg state p = .error e →
            r.status = .check_failed ∧ r.error = some e)
        ∧ (∀ r0, check_single_update fetchVersions cfg state p = .ok r0 → r = r0)) := by
  induction projects with
  | nil => simp [check_updates]
  | cons p ps ih =>
    refine ⟨by simpa [check_updates] using ih.1, ?_⟩
    intro q r hmem
    rw [check_updates] at hmem
    rcases List.mem_cons.mp hmem with heq | htail
    · injection heq with hq hr
      subst hq
      refine ⟨?_, ?_, ?_⟩
      · cases hc : check_single_update fetchVersions cfg state q with
        | error e => rw [hr, hc]; rfl
        | ok r0 =>
          rw [hr, hc]
          exact check_single_update_slug fetchVersions cfg state q r0 hc
      · intro e he
        rw [hr, he]
        exact ⟨rfl, rfl⟩
      · intro r0 h0
        rw [hr, h0]
    · exact ih.2 q r htail

/-- C10: when the resolved primary file's hash dict has no "sha512" key, the
planner compares the installed sha512 against the empty string, so a
non-empty installed hash is classified OUTDATED. -/
theorem c10_missing_target_hash_outdated
    (fetchVersions : String → Except String (List ProjectVersion))
    (cfg : AppConfig) (state : StateFile) (project : ProjectConfig)
    (versions : List ProjectVersion) (latest : ProjectVersion)
    (inst : InstalledFile) (pf : ProjectFile)
    (hfetch : fetchVersions project.slug = .ok versions)
    (hlatest : get_latest_compatible_version versions cfg.minecraft_version
        cfg.loader project.channel = some latest)
    (hinst : get_installed_file state project.slug = some inst)
    (hpf : primaryFile latest.files = some pf)
    (hnokey : pf.hashes.lookup "sha512" = none)
    (hne : inst.sha512 ≠ "") :
    needs_update inst (some pf) = true
    ∧ ∃ r, check_single_update fetchVersions cfg state project = .ok r
        ∧ r.status = .outdated := by
  have hlow : lower inst.sha512 ≠ "" := fun h => hne ((lower_eq_empty_iff _).mp h)
  have hnu : needs_update inst (some pf) = true := by
    simp only [needs_update, dictGet, hnokey, Option.getD, bne_iff_ne, ne_eq]
    intro h
    exact hlow h
  have hstat : check_single_update fetchVersions cfg state project = .ok
      { slug := project.slug, status := .outdated,
        current_version := some inst.version_number,
        current_file := some inst,
        latest_version := some latest.version_number,
        latest_version_id := some latest.id,
        latest_file := some pf, error := none } := by
    rw [check_single_update, hfetch]
    simp only [hlatest, hinst, hpf, hnu, if_true, Option.map_some']
  exact ⟨hnu, _, hstat, rfl⟩

/-! ### Concrete fixtures for witnesses and counterexamples -/

/-- a primary file carrying a sha512 hash -/
def samplePF : ProjectFile :=
  { url := "https://cdn/m.jar", filename := "m.jar", size := 10,
    hashes := [("sha512", "AB")], primary := true }

/-- a release version compatible with sampleCfg -/
def sampleVersion : ProjectVersion :=
  { id := "v1", project_id := "p1", version_number := "1.0.0",
    version_type := .release, game_versions := ["1.21"], loaders := ["fabric"],
    files := [samplePF], date_published := 100 }

def sampleCfg : AppConfig :=
  { minecraft_version := "1.21", loader := .fabric, minecraft_dir := "/mc" }

def sampleDT : DateTime := ⟨2024, 6, 1, 12, 30, 0⟩

/-- an installed record whose hash equals samplePF's up to case -/
def sampleInstalled : InstalledFile :=
  { slug := "x", project_type := .mod, filename := "old.jar",
    version_id := "v0", version_number := "0.9", sha512 := "ab",
    installed_at := sampleDT, file_path := "/mc/mods/old.jar" }

def sampleState : StateFile := { version := 1, files := [("x", sampleInstalled)] }

def sampleFetch : String → Except String (List ProjectVersion) :=
  fun _ => .ok [sampleVersion]

/-- a gateway that raises (str(e) = "boom") for every slug except "x" -/
def failFetch : String → Except String (List ProjectVersion) :=
  fun s => if s = "x" then .ok [sampleVersion] else .error "boom"

/-- a primary file whose hash dict has no "sha512" key -/
def nokeyPF : ProjectFile :=
  { url := "https://cdn/n.jar", filename := "n.jar", size := 5,
    hashes := [], primary := true }

def nokeyVersion : ProjectVersion :=
  { id := "v2", project_id := "p1", version_number := "2.0.0",
    version_type := .release, game_versions := ["1.21"], loaders := ["fabric"],
    files := [nokeyPF], date_published := 200 }

def nokeyFetch : String → Except String (List ProjectVersion) :=
  fun _ => .ok [nokeyVersion]

theorem c3_planner_classification_witness :
    (check_single_update sampleFetch sampleCfg sampleState
        ⟨"x", none, .release⟩).toOption.map (fun r => r.status)
      = some InstallStatus.installed := by
  have h := c3_planner_classification sampleFetch sampleCfg sampleState
    ⟨"x", none, .release⟩ [sampleVersion] rfl
  obtain ⟨r, hr, _, hins⟩ := (h.2 sampleVersion rfl).2 sampleInstalled samplePF "AB"
    rfl rfl rfl
  rw [hr]
  simp only [Except.toOption, Option.map_some']
  rw [hins.mpr (by decide)]

theorem c4_per_slug_check_failed_witness :
    (check_updates failFetch sampleCfg sampleState
        [⟨"x", none, .release⟩, ⟨"y", none, .release⟩]).length = 2
    ∧ (checkFailedResult "y" "boom").status = .check_failed
    ∧ (checkFailedResult "y" "boom").error = some "boom" := by
  have h := c4_per_slug_check_failed failFetch sampleCfg sampleState
    [⟨"x", none, .release⟩, ⟨"y", none, .release⟩]
  refine ⟨h.1, ?_⟩
  have hm : ((⟨"y", none, .release⟩ : ProjectConfig), checkFailedResult "y" "boom")
      ∈ ([⟨"x", none, .release⟩, ⟨"y", none, .release⟩] : List ProjectConfig).zip
        (check_updates failFetch sampleCfg sampleState
          [⟨"x", none, .release⟩, ⟨"y", none, .release⟩]) := by decide
  exact (h.2 _ _ hm).2.1 "boom" rfl

theorem c10_missing_target_hash_outdated_witness :
    needs_update sampleInstalled (some nokeyPF) = true
    ∧ (check_single_update nokeyFetch sampleCfg sampleState
        ⟨"x", none, .release⟩).toOption.map (fun r => r.status)
      = some InstallStatus.outdated := by
  have h := c10_missing_target_hash_outdated nokeyFetch sampleCfg sampleState
    ⟨"x", none, .release⟩ [nokeyVersion] nokeyVersion sampleInstalled nokeyPF
    rfl rfl rfl rfl rfl (by decide)
  obtain ⟨hnu, r, hr, hs⟩ := h
  refine ⟨hnu, ?_⟩
  rw [hr]
  simp only [Except.toOption, Option.map_some']
  rw [hs]

/-- C8 (amended): it is `get_install_status` that treats a ledger record whose
`file_path` no longer exists on disk as NOT_INSTALLED, leaving the ledger
untouched; the batch planner `_check_single_update` never consults the
filesystem and classifies by the ledger hash alone. -/
theorem c8_stale_record_not_installed
    (fetchVersions : String → Except String (List ProjectVersion))
    (cfg : AppConfig) (state : StateFile) (onDisk : String → Bool)
    (slug : String) (pc : Option ProjectConfig) (inst : InstalledFile)
    (hinst : get_installed_file state slug = some inst)
    (hdisk : onDisk inst.file_path = false) :
    get_install_status fetchVersions cfg state onDisk slug pc = .not_installed := by
  rw [get_install_status.eq_def]
  simp [hinst, hdisk]

theorem c8_stale_record_not_installed_witness :
    get_install_status sampleFetch sampleCfg sampleState (fun _ => false) "x" none
      = .not_installed :=
  c8_stale_record_not_installed sampleFetch sampleCfg sampleState (fun _ => false)
    "x" none sampleInstalled rfl rfl

/-- C8 counterexample: a declaration with a ledger record present and the
recorded file absent from disk.  `get_install_status` (which checks the disk)
says NOT_INSTALLED, but the batch-planning path `_check_single_update` takes
no filesystem input at all and classifies this slug INSTALLED, not
NOT_INSTALLED, refuting the claim about `plan`. -/
theorem c8_counterexample :
    (check_single_update sampleFetch sampleCfg sampleState
        ⟨"x", none, .release⟩).toOption.map (fun r => r.status)
      = some InstallStatus.installed
    ∧ get_install_status sampleFetch sampleCfg sampleState (fun _ => false) "x" none
      = InstallStatus.not_installed
    ∧ InstallStatus.installed ≠ InstallStatus.not_installed := by
  refine ⟨by decide, by decide, by decide⟩

/-! ## Filesystem model

The filesystem relevant to the executor is a finite map path ↦ byte
contents, as an association list.  Bytes are `List Nat`. -/

abbrev FS := List (String × List Nat)

def fsGet : FS → String → Option (List Nat)
  | [], _ => none
  | (a, b) :: t, p => if p = a then some b else fsGet t p

/-- delete a path (`unlink`; no-op when absent) -/
def fsDel : FS → String → FS
  | [], _ => []
  | (a, b) :: t, p => if a = p then fsDel t p else (a, b) :: fsDel t p

/-- write (create or overwrite) a file -/
def fsSet (fs : FS) (p : String) (b : List Nat) : FS := (p, b) :: fsDel fs p

theorem fsGet_fsDel (fs : FS) (p q : String) :
    fsGet (fsDel fs p) q = if q = p then none else fsGet fs q := by
  induction fs with
  | nil => simp [fsGet, fsDel]
  | cons e t ih =>
    obtain ⟨a, b⟩ := e
    simp only [fsDel]
    by_cases hap : a = p
    · subst hap
      rw [if_pos rfl, ih]
      by_cases hq : q = a <;> simp [hq, fsGet]
    · rw [if_neg hap]
      by_cases hqa : q = a
      · subst hqa
        have hqp : q ≠ p := hap
        simp [fsGet, hqp]
      · simp [fsGet, hqa, ih]

theorem fsGet_fsSet (fs : FS) (p : String) (b : List Nat) (q : String) :
    fsGet (fsSet fs p b) q = if q = p then some b else fsGet fs q := by
  simp only [fsSet, fsGet]
  by_cases hq : q = p <;> simp [hq, fsGet_fsDel]

/-! ## Downloader (downloader.py)

`H` models `compute_sha512` on the downloaded bytes; `net` models the HTTP
stream: body bytes on success, or the formatted `str(DownloadError)` on an
HTTP or I/O failure (in which case `_download_stream` has already removed the
partial file, so the filesystem is unchanged). -/

structure DownloaderConfig where
  max_concurrent : Nat := 5
  verify_hash : Bool := true
deriving DecidableEq, Repr

/-- the message of HashMismatchError (exceptions.py) -/
def hashMismatchMessage (filename expected actual : String) : String :=
  "Hash mismatch for " ++ filename ++ ": expected " ++ strTake expected 16
    ++ "..., got " ++ strTake actual 16 ++ "..."

/-- Downloader.download_file: stream to `task.dest`, then `_verify_hash`
(which deletes the staged file and raises HashMismatchError on mismatch,
caught and folded into the DownloadResult). -/
def download_file (H : List Nat → String) (net : String → Except String (List Nat))
    (cfg : DownloaderConfig) (fs : FS) (task : DownloadTask) : FS × DownloadResult :=
  match net task.url with
  | .error e =>
    (fs, { task := task, success := false, file_path := none, error := some e })
  | .ok body =>
    let fs1 := fsSet fs task.dest body
    if cfg.verify_hash then
      match task.expected_hash with
      | some expected =>
        if lower (H body) = lower expected then
          (fs1, { task := task, success := true, file_path := some task.dest,
                  error := none })
        else
          (fsDel fs1 task.dest,
           { task := task, success := false, file_path := none,
             error := some (hashMismatchMessage (pathName task.dest) expected
               (H body)) })
      | none =>
        (fs1, { task := task, success := true, file_path := some task.dest,
                error := none })
    else
      (fs1, { task := task, success := true, file_path := some task.dest,
              error := none })

/-- Downloader.download_all: `asyncio.gather` returns results in input-task
order; the bounded-concurrency fan-out is modelled sequentially in that
order. -/
def download_all (H : List Nat → String) (net : String → Except String (List Nat))
    (cfg : DownloaderConfig) (fs : FS) :
    List DownloadTask → FS × List DownloadResult
  | [] => (fs, [])
  | t :: ts =>
    let step := download_file H net cfg fs t
    let rest := download_all H net cfg step.1 ts
    (rest.1, step.2 :: rest.2)

/-! ## File management (manager.py F-401 to F-404) -/

/-- ProjectManager.get_target_directory -/
def get_target_directory (cfg : AppConfig) : ProjectType → String
  | .mod => cfg.mods_dir.getD (pJoin cfg.minecraft_dir "mods")
  | .shader => cfg.shaders_dir.getD (pJoin cfg.minecraft_dir "shaderpacks")
  | .resourcepack =>
    cfg.resourcepacks_dir.getD (pJoin cfg.minecraft_dir "resourcepacks")

/-- ProjectManager._get_temp_download_dir -/
def temp_download_dir (cfg : AppConfig) : String :=
  pJoin cfg.minecraft_dir ".mcpax-downloads"

/-- ProjectManager.place_file: `shutil.move(src, dest_dir / src.name)`;
moving a missing source raises, folded into FileOperationError's message. -/
def place_file (fs : FS) (src dest_dir : String) : Except String (FS × String) :=
  let dest := pJoin dest_dir (pathName src)
  match fsGet fs src with
  | some b => .ok (fsSet (fsDel fs src) dest b, dest)
  | none => .error ("Failed to move file: " ++ src)

/-- join character-list chunks with a dot between chunks -/
def joinDots : List (List Char) → List Char
  | [] => []
  | [x] => x
  | x :: xs => x ++ '.' :: joinDots xs

/-- `Path.stem` for an ordinary (non-dot-leading) file name -/
def pathStem (name : String) : String :=
  let parts := splitOnCharAux name.data '.'
  if parts.length ≤ 1 then name else String.mk (joinDots parts.dropLast)

/-- `Path.suffix` for an ordinary file name -/
def pathSuffix (name : String) : String :=
  let parts := splitOnCharAux name.data '.'
  if parts.length ≤ 1 then "" else String.mk ('.' :: parts.getLastD [])

/-- the timestamped `f"{stem}_{timestamp}{suffix}"` backup name;
`ts` is the strftime-rendered wall clock passed in explicitly -/
def backup_name (name ts : String) : String :=
  pathStem name ++ "_" ++ ts ++ pathSuffix name

/-- ProjectManager.backup_file: `shutil.copy2` into the backup dir;
`backupFail p = true` models an OSError while copying `p` (disk full,
permissions), which the code wraps in FileOperationError. -/
def backup_file (backupFail : String → Bool) (cfg : AppConfig) (ts : String)
    (fs : FS) (file_path : String) : Except String (FS × String) :=
  let bdir := pJoin cfg.minecraft_dir ".mcpax-backup"
  let bpath := pJoin bdir (backup_name (pathName file_path) ts)
  if backupFail file_path then
    .error ("Failed to backup file: " ++ file_path)
  else
    match fsGet fs file_path with
    | some b => .ok (fsSet fs bpath b, bpath)
    | none => .error ("Failed to backup file: " ++ file_path)

/-- ProjectManager.delete_file (the OSError branch is not modelled; deletes
in this development always succeed) -/
def delete_file (fs : FS) (p : String) : FS × Bool :=
  match fsGet fs p with
  | some _ => (fsDel fs p, true)
  | none => (fs, false)

/-! ## Update executor (ProjectManager.apply_updates)

`getProject` models `ModrinthClient.get_project` restricted to the only field
the executor uses (`project.project_type`); its error string stands for
`str(e)`.  `ts` is the strftime timestamp and `now` the `datetime.now(UTC)`
instant, both passed in explicitly to keep the embedding deterministic. -/

/-- the first loop of apply_updates: build DownloadTasks and the
`update_info` dict, collecting pre-download failures in order -/
structure TaskBuild where
  tasks : List DownloadTask
  info : List (String × (UpdateCheckResult × ProjectType))
  failed : List (String × String)
deriving Repr

def build_tasks (getProject : String → Except String ProjectType)
    (cfg : AppConfig) : List UpdateCheckResult → TaskBuild
  | [] => ⟨[], [], []⟩
  | u :: rest =>
    let b := build_tasks getProject cfg rest
    match u.latest_file with
    | none => ⟨b.tasks, b.info, (u.slug, "No compatible version found") :: b.failed⟩
    | some f =>
      match getProject u.slug with
      | .error e => ⟨b.tasks, b.info, (u.slug, e) :: b.failed⟩
      | .ok project_type =>
        let task : DownloadTask :=
          { url := f.url, dest := pJoin (temp_download_dir cfg) f.filename,
            expected_hash := f.hashes.lookup "sha512", slug := u.slug,
            version_number := u.latest_version.getD "unknown" }
        ⟨task :: b.tasks, (u.slug, (u, project_type)) :: b.info, b.failed⟩

/-- the mutable pieces threaded through the second loop of apply_updates -/
structure ExecState where
  fs : FS
  state : StateFile
  modified : Bool
deriving Repr

/-- the end of the loop body: the `update.latest_file is None` guard and the
in-memory state update (`state.files[slug] = installed_file`).  Returns the
new exec state, the successful slug (if any), the failure (if any), and the
backups recorded so far in this iteration. -/
def ledger_update (now : DateTime) (es : ExecState) (u : UpdateCheckResult)
    (project_type : ProjectType) (version_id slug final_path : String)
    (fs : FS) (backs : List String) :
    ExecState × Option String × Option (String × String) × List String :=
  match u.latest_file with
  | none => (⟨fs, es.state, es.modified⟩, none, some (slug, "Latest file is None"), backs)
  | some lf =>
    let installed : InstalledFile :=
      { slug := slug, project_type := project_type,
        filename := pathName final_path, version_id := version_id,
        version_number := u.latest_version.getD "unknown",
        sha512 := dictGet lf.hashes "sha512" "",
        installed_at := now, file_path := final_path }
    (⟨fs, { es.state with files := dictInsert es.state.files slug installed }, true⟩,
     some slug, none, backs)

/-- the loop body after the new file has been placed: backup then delete the
old file (a backup failure raises, so the outer `except` rolls the placed
file back and records the slug as failed), then update the in-memory state. -/
def apply_step_placed (backupFail : String → Bool) (cfg : AppConfig)
    (ts : String) (now : DateTime) (backup : Bool) (es : ExecState)
    (u : UpdateCheckResult) (project_type : ProjectType)
    (version_id slug final_path : String) (fs1 : FS) :
    ExecState × Option String × Option (String × String) × List String :=
  match u.current_file with
  | some cf =>
    if fsGet fs1 cf.file_path ≠ none ∧ cf.file_path ≠ final_path then
      if backup then
        match backup_file backupFail cfg ts fs1 cf.file_path with
        | .error e =>
          (⟨(delete_file fs1 final_path).1, es.state, es.modified⟩, none,
           some (slug, e), [])
        | .ok (fs2, bpath) =>
          let fs3 := (delete_file fs2 cf.file_path).1
          ledger_update now es u project_type version_id slug final_path fs3 [bpath]
      else
        let fs2 := (delete_file fs1 cf.file_path).1
        ledger_update now es u project_type version_id slug final_path fs2 []
    else
      ledger_update now es u project_type version_id slug final_path fs1 []
  | none => ledger_update now es u project_type version_id slug final_path fs1 []

/-- one iteration of `for download_result in download_results` -/
def apply_step (backupFail : String → Bool) (cfg : AppConfig) (ts : String)
    (now : DateTime) (info : List (String × (UpdateCheckResult × ProjectType)))
    (backup : Bool) (es : ExecState) (r : DownloadResult) :
    ExecState × Option String × Option (String × String) × List String :=
  let slug := r.task.slug
  if r.success = false then
    (es, none, some (slug, r.error.getD "Download failed"), [])
  else
    match dictLookupLast info slug with
    | none => (es, none, none, [])
    | some (u, project_type) =>
      match u.latest_version_id with
      | none => (es, none, some (slug, "Latest version id is None"), [])
      | some version_id =>
        let target_dir := get_target_directory cfg project_type
        match r.file_path with
        | none => (es, none, some (slug, "Download path is None"), [])
        | some src =>
          match place_file es.fs src target_dir with
          | .error e => (es, none, some (slug, e), [])
          | .ok (fs1, final_path) =>
            apply_step_placed backupFail cfg ts now backup es u project_type
              version_id slug final_path fs1

/-- the second loop of apply_updates, in download-result order -/
def process_results (backupFail : String → Bool) (cfg : AppConfig) (ts : String)
    (now : DateTime) (info : List (String × (UpdateCheckResult × ProjectType)))
    (backup : Bool) (es : ExecState) :
    List DownloadResult → ExecState × List String × List (String × String) × List String
  | [] => (es, [], [], [])
  | r :: rest =>
    match apply_step backupFail cfg ts now info backup es r with
    | (es1, succ, fail, backs) =>
      match process_results backupFail cfg ts now info backup es1 rest with
      | (es2, succs, fails, moreBacks) =>
        (es2, succ.toList ++ succs, fail.toList ++ fails, backs ++ moreBacks)

/-- what apply_updates leaves behind: the final filesystem, the trace of
ledger documents written by `_save_state` (one entry per save call), and the
returned UpdateResult -/
structure ApplyOutcome where
  fs : FS
  saved : List StateFile
  result : UpdateResult
deriving Repr

/-- ProjectManager.apply_updates -/
def apply_updates (H : List Nat → String) (net : String → Except String (List Nat))
    (getProject : String → Except String ProjectType)
    (backupFail : String → Bool) (cfg : AppConfig) (ts : String) (now : DateTime)
    (fs0 : FS) (state0 : StateFile) (updates : List UpdateCheckResult)
    (backup : Bool) : ApplyOutcome :=
  let to_update := updates.filter (fun u =>
    u.status == InstallStatus.not_installed || u.status == InstallStatus.outdated)
  if to_update.isEmpty then
    ⟨fs0, [], ⟨[], [], []⟩⟩
  else
    let b := build_tasks getProject cfg to_update
    let dcfg : DownloaderConfig :=
      { max_concurrent := cfg.max_concurrent_downloads,
        verify_hash := cfg.verify_hash }
    if b.tasks.isEmpty then
      ⟨fs0, [], ⟨[], b.failed, []⟩⟩
    else
      match download_all H net dcfg fs0 b.tasks with
      | (fs1, dresults) =>
        match process_results backupFail cfg ts now b.info backup
            ⟨fs1, state0, false⟩ dresults with
        | (es, succs, fails, backs) =>
          ⟨es.fs, if es.modified then [es.state] else [],
           ⟨succs, b.failed ++ fails, backs⟩⟩

/-! ### C1: hash gate -/

/-- C1: for a batch holding a download task whose computed sha512 of the
downloaded bytes differs (case-insensitively) from the declared expected
hash, with hash verification enabled, apply reports that slug as failed (and
not successful), the staged file is deleted, nothing is persisted, and every
path other than the staging path — in particular any path in the target
directory — is exactly as before, so no file was placed for that slug. -/
theorem c1_hash_gate (H : List Nat → String)
    (net : String → Except String (List Nat))
    (getProject : String → Except String ProjectType)
    (backupFail : String → Bool) (cfg : AppConfig) (ts : String) (now : DateTime)
    (fs0 : FS) (state0 : StateFile) (u : UpdateCheckResult) (backup : Bool)
    (f : ProjectFile) (pt : ProjectType) (body : List Nat) (expected : String)
    (hact : u.status = InstallStatus.not_installed
      ∨ u.status = InstallStatus.outdated)
    (hfile : u.latest_file = some f)
    (hproj : getProject u.slug = .ok pt)
    (hnet : net f.url = .ok body)
    (hhash : f.hashes.lookup "sha512" = some expected)
    (hverify : cfg.verify_hash = true)
    (hmismatch : lower (H body) ≠ lower expected) :
    (apply_updates H net getProject backupFail cfg ts now fs0 state0 [u]
        backup).result.failed
      = [(u.slug, hashMismatchMessage
          (pathName (pJoin (temp_download_dir cfg) f.filename)) expected (H body))]
    ∧ (apply_updates H net getProject backupFail cfg ts now fs0 state0 [u]
        backup).result.successful = []
    ∧ (apply_updates H net getProject backupFail cfg ts now fs0 state0 [u]
        backup).saved = []
    ∧ ∀ q, fsGet (apply_updates H net getProject backupFail cfg ts now fs0 state0
        [u] backup).fs q
      = if q = pJoin (temp_download_dir cfg) f.filename then none
        else fsGet fs0 q := by
  have hfilter : ([u].filter (fun v =>
      v.status == InstallStatus.not_installed
        || v.status == InstallStatus.outdated)) = [u] := by
    rcases hact with h | h <;> simp [List.filter_cons, h]
  have hbuild : build_tasks getProject cfg [u] =
      ⟨[{ url := f.url, dest := pJoin (temp_download_dir cfg) f.filename,
          expected_hash := f.hashes.lookup "sha512", slug := u.slug,
          version_number := u.latest_version.getD "unknown" }],
        [(u.slug, (u, pt))], []⟩ := by
    simp only [build_tasks, hfile, hproj]
  have hdf : download_file H net
      { max_concurrent := cfg.max_concurrent_downloads,
        verify_hash := cfg.verify_hash } fs0
      { url := f.url, dest := pJoin (temp_download_dir cfg) f.filename,
        expected_hash := f.hashes.lookup "sha512", slug := u.slug,
        version_number := u.latest_version.getD "unknown" } =
      (fsDel (fsSet fs0 (pJoin (temp_download_dir cfg) f.filename) body)
        (pJoin (temp_download_dir cfg) f.filename),
       { task := { url := f.url, dest := pJoin (temp_download_dir cfg) f.filename,
                   expected_hash := f.hashes.lookup "sha512", slug := u.slug,
                   version_number := u.latest_version.getD "unknown" },
         success := false, file_path := none,
         error := some (hashMismatchMessage
           (pathName (pJoin (temp_download_dir cfg) f.filename)) expected
           (H body)) }) := by
    simp only [download_file, hnet, hverify, hhash, if_true, if_neg hmismatch]
  have happly : apply_updates H net getProject backupFail cfg ts now fs0 state0
      [u] backup =
      ⟨fsDel (fsSet fs0 (pJoin (temp_download_dir cfg) f.filename) body)
         (pJoin (temp_download_dir cfg) f.filename),
       [],
       ⟨[], [(u.slug, hashMismatchMessage
           (pathName (pJoin (temp_download_dir cfg) f.filename)) expected
           (H body))], []⟩⟩ := by
    rw [apply_updates]
    rw [hfilter, hbuild]
    simp only [List.isEmpty_cons, Bool.false_eq_true, if_false, download_all,
      hdf, process_results, apply_step, eq_self_iff_true, if_true,
      Option.getD_some, Option.toList_some, Option.toList_none,
      List.nil_append, List.append_nil, List.cons_append]
  rw [happly]
  refine ⟨rfl, rfl, rfl, ?_⟩
  intro q
  rw [fsGet_fsDel, fsGet_fsSet]
  by_cases hq : q = pJoin (temp_download_dir cfg) f.filename <;> simp [hq]

/-- an actionable planned update targeting samplePF -/
def c1U : UpdateCheckResult :=
  { slug := "x", status := .outdated, current_version := some "0.9",
    current_file := some sampleInstalled, latest_version := some "1.0.0",
    latest_version_id := some "v1", latest_file := some samplePF, error := none }

theorem c1_hash_gate_witness :
    (apply_updates (fun _ => "cd") (fun _ => .ok [7])
        (fun _ => .ok ProjectType.mod) (fun _ => false) sampleCfg "t" sampleDT
        [] sampleState [c1U] true).result.successful = []
    ∧ (apply_updates (fun _ => "cd") (fun _ => .ok [7])
        (fun _ => .ok ProjectType.mod) (fun _ => false) sampleCfg "t" sampleDT
        [] sampleState [c1U] true).saved = []
    ∧ (apply_updates (fun _ => "cd") (fun _ => .ok [7])
        (fun _ => .ok ProjectType.mod) (fun _ => false) sampleCfg "t" sampleDT
        [] sampleState [c1U] true).result.failed
      = [("x", hashMismatchMessage "m.jar" "AB" "cd")]
    ∧ fsGet (apply_updates (fun _ => "cd") (fun _ => .ok [7])
        (fun _ => .ok ProjectType.mod) (fun _ => false) sampleCfg "t" sampleDT
        [] sampleState [c1U] true).fs
        (pJoin (temp_download_dir sampleCfg) "m.jar") = none := by
  have h := c1_hash_gate (fun _ => "cd") (fun _ => .ok [7])
    (fun _ => .ok ProjectType.mod) (fun _ => false) sampleCfg "t" sampleDT
    [] sampleState c1U true samplePF ProjectType.mod [7] "AB"
    (Or.inr rfl) rfl rfl rfl rfl rfl (by decide)
  refine ⟨h.2.1, h.2.2.1, ?_, ?_⟩
  · rw [h.1]
    rfl
  · rw [h.2.2.2 (pJoin (temp_download_dir sampleCfg) "m.jar")]
    rfl

/-! ### C7: backup failure handling -/

/-- C7 (amended): after the new file is placed, a failure of the backup step
for the old file is FATAL to that slug's update — the raised
FileOperationError reaches apply_updates' per-slug handler, which rolls back
the newly placed file and records the slug as failed; nothing is persisted
and the slug is not recorded as successful.  (The spec's claim that backup
failures are non-fatal does not match the code: apply_updates has no local
try/except around `backup_file`.) -/
theorem c7_backup_failure_fatal (H : List Nat → String)
    (net : String → Except String (List Nat))
    (getProject : String → Except String ProjectType)
    (backupFail : String → Bool) (cfg : AppConfig) (ts : String) (now : DateTime)
    (fs0 : FS) (state0 : StateFile) (u : UpdateCheckResult)
    (f : ProjectFile) (pt : ProjectType) (body oldbytes : List Nat)
    (vid : String) (cf : InstalledFile)
    (hact : u.status = InstallStatus.not_installed
      ∨ u.status = InstallStatus.outdated)
    (hfile : u.latest_file = some f)
    (hproj : getProject u.slug = .ok pt)
    (hnet : net f.url = .ok body)
    (hnoverify : f.hashes.lookup "sha512" = none)
    (hvid : u.latest_version_id = some vid)
    (hcf : u.current_file = some cf)
    (hold : fsGet fs0 cf.file_path = some oldbytes)
    (hne_dest : cf.file_path ≠ pJoin (temp_download_dir cfg) f.filename)
    (hne_final : cf.file_path ≠ pJoin (get_target_directory cfg pt)
      (pathName (pJoin (temp_download_dir cfg) f.filename)))
    (hbf : backupFail cf.file_path = true) :
    (apply_updates H net getProject backupFail cfg ts now fs0 state0 [u]
        true).result.failed
      = [(u.slug, "Failed to backup file: " ++ cf.file_path)]
    ∧ (apply_updates H net getProject backupFail cfg ts now fs0 state0 [u]
        true).result.successful = []
    ∧ (apply_updates H net getProject backupFail cfg ts now fs0 state0 [u]
        true).saved = []
    ∧ fsGet (apply_updates H net getProject backupFail cfg ts now fs0 state0 [u]
        true).fs (pJoin (get_target_directory cfg pt)
          (pathName (pJoin (temp_download_dir cfg) f.filename))) = none
    ∧ fsGet (apply_updates H net getProject backupFail cfg ts now fs0 state0 [u]
        true).fs cf.file_path = fsGet fs0 cf.file_path := by
  have hfilter : ([u].filter (fun v =>
      v.status == InstallStatus.not_installed
        || v.status == InstallStatus.outdated)) = [u] := by
    rcases hact with h | h <;> simp [List.filter_cons, h]
  have hbuild : build_tasks getProject cfg [u] =
      ⟨[{ url := f.url, dest := pJoin (temp_download_dir cfg) f.filename,
          expected_hash := f.hashes.lookup "sha512", slug := u.slug,
          version_number := u.latest_version.getD "unknown" }],
        [(u.slug, (u, pt))], []⟩ := by
    simp only [build_tasks, hfile, hproj]
  have hdf : download_file H net
      { max_concurrent := cfg.max_concurrent_downloads,
        verify_hash := cfg.verify_hash } fs0
      { url := f.url, dest := pJoin (temp_download_dir cfg) f.filename,
        expected_hash := f.hashes.lookup "sha512", slug := u.slug,
        version_number := u.latest_version.getD "unknown" } =
      (fsSet fs0 (pJoin (temp_download_dir cfg) f.filename) body,
       { task := { url := f.url, dest := pJoin (temp_download_dir cfg) f.filename,
                   expected_hash := f.hashes.lookup "sha512", slug := u.slug,
                   version_number := u.latest_version.getD "unknown" },
         success := true,
         file_path := some (pJoin (temp_download_dir cfg) f.filename),
         error := none }) := by
    simp only [download_file, hnet, hnoverify]
    split <;> rfl
  have hplace : place_file (fsSet fs0 (pJoin (temp_download_dir cfg) f.filename)
        body) (pJoin (temp_download_dir cfg) f.filename)
        (get_target_directory cfg pt) =
      .ok (fsSet (fsDel (fsSet fs0 (pJoin (temp_download_dir cfg) f.filename)
              body) (pJoin (temp_download_dir cfg) f.filename))
            (pJoin (get_target_directory cfg pt)
              (pathName (pJoin (temp_download_dir cfg) f.filename))) body,
           pJoin (get_target_directory cfg pt)
             (pathName (pJoin (temp_download_dir cfg) f.filename))) := by
    simp [place_file, fsGet_fsSet]
  have hfs2old : fsGet (fsSet (fsDel (fsSet fs0 (pJoin (temp_download_dir cfg)
        f.filename) body) (pJoin (temp_download_dir cfg) f.filename))
        (pJoin (get_target_directory cfg pt)
          (pathName (pJoin (temp_download_dir cfg) f.filename))) body)
        cf.file_path = fsGet fs0 cf.file_path := by
    rw [fsGet_fsSet, if_neg hne_final, fsGet_fsDel, if_neg hne_dest,
      fsGet_fsSet, if_neg hne_dest]
  have hfs2final : fsGet (fsSet (fsDel (fsSet fs0 (pJoin (temp_download_dir cfg)
        f.filename) body) (pJoin (temp_download_dir cfg) f.filename))
        (pJoin (get_target_directory cfg pt)
          (pathName (pJoin (temp_download_dir cfg) f.filename))) body)
        (pJoin (get_target_directory cfg pt)
          (pathName (pJoin (temp_download_dir cfg) f.filename))) = some body := by
    rw [fsGet_fsSet, if_pos rfl]
  have hcond : fsGet (fsSet (fsDel (fsSet fs0 (pJoin (temp_download_dir cfg)
        f.filename) body) (pJoin (temp_download_dir cfg) f.filename))
        (pJoin (get_target_directory cfg pt)
          (pathName (pJoin (temp_download_dir cfg) f.filename))) body)
        cf.file_path ≠ none
      ∧ cf.file_path ≠ pJoin (get_target_directory cfg pt)
          (pathName (pJoin (temp_download_dir cfg) f.filename)) := by
    refine ⟨?_, hne_final⟩
    rw [hfs2old, hold]
    exact fun hx => Option.noConfusion hx
  have hbfile : backup_file backupFail cfg ts (fsSet (fsDel (fsSet fs0
        (pJoin (temp_download_dir cfg) f.filename) body)
        (pJoin (temp_download_dir cfg) f.filename))
        (pJoin (get_target_directory cfg pt)
          (pathName (pJoin (temp_download_dir cfg) f.filename))) body)
        cf.file_path = .error ("Failed to backup file: " ++ cf.file_path) := by
    simp only [backup_file, hbf, if_true]
  have hstep : apply_step backupFail cfg ts now [(u.slug, (u, pt))] true
      ⟨fsSet fs0 (pJoin (temp_download_dir cfg) f.filename) body, state0, false⟩
      { task := { url := f.url, dest := pJoin (temp_download_dir cfg) f.filename,
                  expected_hash := f.hashes.lookup "sha512", slug := u.slug,
                  version_number := u.latest_version.getD "unknown" },
        success := true,
        file_path := some (pJoin (temp_download_dir cfg) f.filename),
        error := none } =
      (⟨fsDel (fsSet (fsDel (fsSet fs0 (pJoin (temp_download_dir cfg)
            f.filename) body) (pJoin (temp_download_dir cfg) f.filename))
            (pJoin (get_target_directory cfg pt)
              (pathName (pJoin (temp_download_dir cfg) f.filename))) body)
          (pJoin (get_target_directory cfg pt)
            (pathName (pJoin (temp_download_dir cfg) f.filename))),
         state0, false⟩,
       none, some (u.slug, "Failed to backup file: " ++ cf.file_path), []) := by
    rw [apply_step]
    simp only [Bool.true_eq_false, if_false, dictLookupLast, eq_self_iff_true,
      if_true, hvid, hplace]
    rw [apply_step_placed]
    simp only [hcf, if_pos hcond, if_pos rfl, hbfile, delete_file, hfs2final]
    simp
  have happly : apply_updates H net getProject backupFail cfg ts now fs0 state0
      [u] true =
      ⟨fsDel (fsSet (fsDel (fsSet fs0 (pJoin (temp_download_dir cfg)
            f.filename) body) (pJoin (temp_download_dir cfg) f.filename))
            (pJoin (get_target_directory cfg pt)
              (pathName (pJoin (temp_download_dir cfg) f.filename))) body)
          (pJoin (get_target_directory cfg pt)
            (pathName (pJoin (temp_download_dir cfg) f.filename))),
       [],
       ⟨[], [(u.slug, "Failed to backup file: " ++ cf.file_path)], []⟩⟩ := by
    rw [apply_updates]
    rw [hfilter, hbuild]
    simp only [List.isEmpty_cons, Bool.false_eq_true, if_false, download_all,
      hdf, process_results, hstep, Option.toList_some, Option.toList_none,
      List.nil_append, List.append_nil, List.cons_append]
  rw [happly]
  refine ⟨rfl, rfl, rfl, ?_, ?_⟩
  · rw [fsGet_fsDel, if_pos rfl]
  · rw [fsGet_fsDel, if_neg hne_final]
    exact hfs2old

/-- an actionable planned update whose target file declares no sha512 and
whose old installed file is sampleInstalled -/
def c7U : UpdateCheckResult :=
  { slug := "x", status := .outdated, current_version := some "0.9",
    current_file := some sampleInstalled, latest_version := some "2.0.0",
    latest_version_id := some "v2", latest_file := some nokeyPF, error := none }

theorem c7_backup_failure_fatal_witness :
    (apply_updates (fun _ => "h") (fun _ => .ok [7])
        (fun _ => .ok ProjectType.mod) (fun _ => true) sampleCfg "t" sampleDT
        [("/mc/mods/old.jar", [9])] sampleState [c7U] true).result.failed
      = [("x", "Failed to backup file: /mc/mods/old.jar")]
    ∧ (apply_updates (fun _ => "h") (fun _ => .ok [7])
        (fun _ => .ok ProjectType.mod) (fun _ => true) sampleCfg "t" sampleDT
        [("/mc/mods/old.jar", [9])] sampleState [c7U] true).result.successful = []
    ∧ (apply_updates (fun _ => "h") (fun _ => .ok [7])
        (fun _ => .ok ProjectType.mod) (fun _ => true) sampleCfg "t" sampleDT
        [("/mc/mods/old.jar", [9])] sampleState [c7U] true).saved = []
    ∧ fsGet (apply_updates (fun _ => "h") (fun _ => .ok [7])
        (fun _ => .ok ProjectType.mod) (fun _ => true) sampleCfg "t" sampleDT
        [("/mc/mods/old.jar", [9])] sampleState [c7U] true).fs
        "/mc/mods/old.jar" = some [9] := by
  have h := c7_backup_failure_fatal (fun _ => "h") (fun _ => .ok [7])
    (fun _ => .ok ProjectType.mod) (fun _ => true) sampleCfg "t" sampleDT
    [("/mc/mods/old.jar", [9])] sampleState c7U nokeyPF ProjectType.mod
    [7] [9] "v2" sampleInstalled (Or.inr rfl) rfl rfl rfl rfl rfl rfl rfl
    (by decide) (by decide) rfl
  refine ⟨?_, h.2.1, h.2.2.1, ?_⟩
  · rw [h.1]
    rfl
  · exact h.2.2.2.2.trans rfl

/-- C7 counterexample: a concrete batch where the only failure is the backup
step for the old file, yet the slug ends up in `failed`, not `successful`,
and the ledger is never written — refuting the claim that a backup failure is
non-fatal and the slug still recorded as successful. -/
theorem c7_counterexample :
    (apply_updates (fun _ => "h") (fun _ => .ok [3])
        (fun _ => .ok ProjectType.mod) (fun _ => true) sampleCfg "u" sampleDT
        [("/mc/mods/old.jar", [9])] sampleState [c7U] true).result.successful = []
    ∧ ¬ ("x" ∈ (apply_updates (fun _ => "h") (fun _ => .ok [3])
        (fun _ => .ok ProjectType.mod) (fun _ => true) sampleCfg "u" sampleDT
        [("/mc/mods/old.jar", [9])] sampleState [c7U] true).result.successful)
    ∧ (apply_updates (fun _ => "h") (fun _ => .ok [3])
        (fun _ => .ok ProjectType.mod) (fun _ => true) sampleCfg "u" sampleDT
        [("/mc/mods/old.jar", [9])] sampleState [c7U] true).saved = []
    ∧ (apply_updates (fun _ => "h") (fun _ => .ok [3])
        (fun _ => .ok ProjectType.mod) (fun _ => true) sampleCfg "u" sampleDT
        [("/mc/mods/old.jar", [9])] sampleState [c7U] true).result.failed
      = [("x", "Failed to backup file: /mc/mods/old.jar")] := by
  refine ⟨by decide, by decide, by decide, by decide⟩

/-! ### C5: one batch save; failed slugs keep their ledger entry -/

theorem lookup_dictInsert {β : Type} (l : List (String × β)) (k : String) (v : β)
    (s : String) :
    (dictInsert l k v).lookup s = if s = k then some v else l.lookup s := by
  induction l with
  | nil =>
    by_cases hs : s = k
    · simp [dictInsert, List.lookup, hs]
    · have hb : (s == k) = false := beq_eq_false_iff_ne.mpr hs
      simp [dictInsert, List.lookup, hs, hb]
  | cons e t ih =>
    obtain ⟨a, b⟩ := e
    by_cases hak : a = k
    · subst hak
      by_cases hs : s = a
      · simp [dictInsert, List.lookup, hs]
      · have hb : (s == a) = false := beq_eq_false_iff_ne.mpr hs
        simp [dictInsert, List.lookup, hs, hb]
    · by_cases hs : s = a
      · subst hs
        have hsk : s ≠ k := hak
        simp [dictInsert, List.lookup, hak, hsk]
      · have hb : (s == a) = false := beq_eq_false_iff_ne.mpr hs
        simp [dictInsert, List.lookup, hak, hs, hb, ih]

theorem ledger_update_state (now : DateTime) (es : ExecState)
    (u : UpdateCheckResult) (project_type : ProjectType)
    (version_id slug final_path : String) (fs : FS) (backs : List String)
    (s : String) :
    (ledger_update now es u project_type version_id slug final_path fs
        backs).2.1 ≠ some s →
    (ledger_update now es u project_type version_id slug final_path fs
        backs).1.state.files.lookup s = es.state.files.lookup s := by
  cases hlf : u.latest_file with
  | none => intro _; simp [ledger_update, hlf]
  | some lf =>
    intro hs
    simp only [ledger_update, hlf] at hs ⊢
    have hne : s ≠ slug := by
      intro h
      exact hs (by rw [h])
    simp [lookup_dictInsert, hne]

theorem apply_step_placed_state (backupFail : String → Bool) (cfg : AppConfig)
    (ts : String) (now : DateTime) (backup : Bool) (es : ExecState)
    (u : UpdateCheckResult) (project_type : ProjectType)
    (version_id slug final_path : String) (fs1 : FS) (s : String) :
    (apply_step_placed backupFail cfg ts now backup es u project_type
        version_id slug final_path fs1).2.1 ≠ some s →
    (apply_step_placed backupFail cfg ts now backup es u project_type
        version_id slug final_path fs1).1.state.files.lookup s
      = es.state.files.lookup s := by
  rw [apply_step_placed]
  dsimp only
  split
  · split
    · split
      · split
        · intro _; rfl
        · apply ledger_update_state
      · apply ledger_update_state
    · apply ledger_update_state
  · apply ledger_update_state

theorem apply_step_state (backupFail : String → Bool) (cfg : AppConfig)
    (ts : String) (now : DateTime)
    (info : List (String × (UpdateCheckResult × ProjectType))) (backup : Bool)
    (es : ExecState) (r : DownloadResult) (s : String) :
    (apply_step backupFail cfg ts now info backup es r).2.1 ≠ some s →
    (apply_step backupFail cfg ts now info backup es r).1.state.files.lookup s
      = es.state.files.lookup s := by
  rw [apply_step]
  dsimp only
  split
  · intro _; rfl
  · split
    · intro _; rfl
    · split
      · intro _; rfl
      · split
        · intro _; rfl
        · split
          · intro _; rfl
          · apply apply_step_placed_state

theorem process_results_state (backupFail : String → Bool) (cfg : AppConfig)
    (ts : String) (now : DateTime)
    (info : List (String × (UpdateCheckResult × ProjectType))) (backup : Bool)
    (es : ExecState) (rs : List DownloadResult) (s : String) :
    ¬ s ∈ (process_results backupFail cfg ts now info backup es rs).2.1 →
    (process_results backupFail cfg ts now info backup es rs).1.state.files.lookup s
      = es.state.files.lookup s := by
  induction rs generalizing es with
  | nil => intro _; rfl
  | cons r rest ih =>
    intro hs
    rcases hstep : apply_step backupFail cfg ts now info backup es r with
      ⟨es1, succ, fail, backs⟩
    rcases hrest : process_results backupFail cfg ts now info backup es1 rest with
      ⟨es2, succs, fails, moreB⟩
    rw [process_results, hstep] at hs ⊢
    dsimp only at hs ⊢
    rw [hrest] at hs ⊢
    dsimp only at hs ⊢
    have h1 : ¬ s ∈ succs := by
      intro h
      exact hs (List.mem_append.mpr (Or.inr h))
    have h2 : succ ≠ some s := by
      intro h
      exact hs (List.mem_append.mpr (Or.inl (by simp [h])))
    have hih := ih es1
    rw [hrest] at hih
    simp only at hih
    have hstep_state := apply_step_state backupFail cfg ts now info backup es r s
    rw [hstep] at hstep_state
    simp only at hstep_state
    exact (hih h1).trans (hstep_state h2)

/-- C5 (amended): apply_updates persists the ledger at most once, at the end
of the batch, and any ledger document it persists agrees with the pre-update
ledger on every slug not recorded as successful — in particular on every
failed slug that is not also successful under another batch entry (with
duplicate-slug batches, a slug can be both failed and successful, and then
its entry does change; see the counterexample). -/
theorem c5_ledger_single_save (H : List Nat → String)
    (net : String → Except String (List Nat))
    (getProject : String → Except String ProjectType)
    (backupFail : String → Bool) (cfg : AppConfig) (ts : String) (now : DateTime)
    (fs0 : FS) (state0 : StateFile) (updates : List UpdateCheckResult)
    (backup : Bool) :
    (apply_updates H net getProject backupFail cfg ts now fs0 state0 updates
        backup).saved.length ≤ 1
    ∧ ∀ st, st ∈ (apply_updates H net getProject backupFail cfg ts now fs0
        state0 updates backup).saved →
      ∀ s, ¬ s ∈ (apply_updates H net getProject backupFail cfg ts now fs0
          state0 updates backup).result.successful →
        st.files.lookup s = state0.files.lookup s := by
  rw [apply_updates]
  dsimp only
  split
  · exact ⟨by simp, by intro st hst; exact absurd hst (by simp)⟩
  · split
    · exact ⟨by simp, by intro st hst; exact absurd hst (by simp)⟩
    · rcases hdl : download_all H net
        { max_concurrent := cfg.max_concurrent_downloads,
          verify_hash := cfg.verify_hash } fs0
        (build_tasks getProject cfg (updates.filter (fun u =>
          u.status == InstallStatus.not_installed
            || u.status == InstallStatus.outdated))).tasks with
        ⟨fs1, dresults⟩
      dsimp only
      rcases hpr : process_results backupFail cfg ts now
        (build_tasks getProject cfg (updates.filter (fun u =>
          u.status == InstallStatus.not_installed
            || u.status == InstallStatus.outdated))).info backup
        ⟨fs1, state0, false⟩ dresults with ⟨es, succs, fails, backs⟩
      dsimp only
      constructor
      · cases es.modified <;> simp
      · intro st hst s hs
        have hms := process_results_state backupFail cfg ts now
          (build_tasks getProject cfg (updates.filter (fun u =>
            u.status == InstallStatus.not_installed
              || u.status == InstallStatus.outdated))).info backup
          ⟨fs1, state0, false⟩ dresults s
        rw [hpr] at hms
        dsimp only at hms
        simp at hst
        rw [hst.2]
        exact hms hs

def c5FA : ProjectFile :=
  { url := "uA", filename := "a.jar", size := 1, hashes := [], primary := true }

def c5FB : ProjectFile :=
  { url := "uB", filename := "b.jar", size := 1, hashes := [], primary := true }

/-- first batch entry for slug "x"; its download will fail -/
def c5U1 : UpdateCheckResult :=
  { slug := "x", status := .outdated, current_version := some "0.9",
    current_file := none, latest_version := some "1",
    latest_version_id := some "vA", latest_file := some c5FA, error := none }

/-- second batch entry for the same slug "x"; its download will succeed -/
def c5U2 : UpdateCheckResult :=
  { slug := "x", status := .outdated, current_version := some "0.9",
    current_file := none, latest_version := some "2",
    latest_version_id := some "vB", latest_file := some c5FB, error := none }

def c5Net : String → Except String (List Nat) :=
  fun url => if url = "uA" then .error "net down" else .ok [7]

/-- the record the successful duplicate entry writes for "x" -/
def c5NewRec : InstalledFile :=
  { slug := "x", project_type := .mod, filename := "b.jar",
    version_id := "vB", version_number := "2", sha512 := "",
    installed_at := sampleDT, file_path := "/mc/mods/b.jar" }

/-- the ledger document the duplicate-slug batch persists -/
def c5SavedState : StateFile := { version := 1, files := [("x", c5NewRec)] }

theorem c5_ledger_single_save_witness :
    (apply_updates (fun _ => "h") c5Net (fun _ => .ok ProjectType.mod)
        (fun _ => false) sampleCfg "t" sampleDT [] sampleState [c5U1, c5U2]
        false).saved.length ≤ 1
    ∧ c5SavedState.files.lookup "y" = sampleState.files.lookup "y" := by
  have h := c5_ledger_single_save (fun _ => "h") c5Net
    (fun _ => .ok ProjectType.mod) (fun _ => false) sampleCfg "t" sampleDT
    [] sampleState [c5U1, c5U2] false
  exact ⟨h.1, h.2 c5SavedState (by decide) "y" (by decide)⟩

/-- C5 counterexample: a batch with two entries for the same slug, where the
first entry's download fails and the second succeeds.  The slug is recorded
both failed and successful, and the persisted ledger entry for the failed
slug "x" is NOT its pre-update entry — refuting the claim as stated for
every batch. -/
theorem c5_counterexample :
    (apply_updates (fun _ => "h") c5Net (fun _ => .ok ProjectType.mod)
        (fun _ => false) sampleCfg "t" sampleDT [] sampleState [c5U1, c5U2]
        false).result.failed = [("x", "net down")]
    ∧ (apply_updates (fun _ => "h") c5Net (fun _ => .ok ProjectType.mod)
        (fun _ => false) sampleCfg "t" sampleDT [] sampleState [c5U1, c5U2]
        false).result.successful = ["x"]
    ∧ (apply_updates (fun _ => "h") c5Net (fun _ => .ok ProjectType.mod)
        (fun _ => false) sampleCfg "t" sampleDT [] sampleState [c5U1, c5U2]
        false).saved.map (fun st => st.files.lookup "x")
      ≠ [sampleState.files.lookup "x"] := by
  refine ⟨by decide, by decide, by decide⟩

/-! ### C9: output ordering -/

theorem check_updates_order
    (fetchVersions : String → Except String (List ProjectVersion))
    (cfg : AppConfig) (state : StateFile) (ps : List ProjectConfig) :
    (check_updates fetchVersions cfg state ps).map (fun r => r.slug)
      = ps.map (fun p => p.slug) := by
  induction ps with
  | nil => rfl
  | cons p ps ih =>
    rw [check_updates]
    simp only [List.map_cons, ih]
    congr 1
    cases hc : check_single_update fetchVersions cfg state p with
    | error e => rfl
    | ok r => exact check_single_update_slug fetchVersions cfg state p r hc

theorem build_tasks_failed_sublist (g : String → Except String ProjectType)
    (cfg : AppConfig) (us : List UpdateCheckResult) :
    List.Sublist ((build_tasks g cfg us).failed.map Prod.fst)
      (us.map (fun u => u.slug)) := by
  induction us with
  | nil => simp [build_tasks]
  | cons u rest ih =>
    rw [build_tasks]
    cases hlf : u.latest_file with
    | none => simpa using List.Sublist.cons₂ u.slug ih
    | some f =>
      cases hgp : g u.slug with
      | error e => simpa using List.Sublist.cons₂ u.slug ih
      | ok pt => simpa using ih.cons u.slug

theorem build_tasks_tasks_slugs (g : String → Except String ProjectType)
    (cfg : AppConfig) (us : List UpdateCheckResult) :
    List.Sublist ((build_tasks g cfg us).tasks.map (fun t => t.slug))
      (us.map (fun u => u.slug)) := by
  induction us with
  | nil => simp [build_tasks]
  | cons u rest ih =>
    rw [build_tasks]
    cases hlf : u.latest_file with
    | none => simpa using ih.cons u.slug
    | some f =>
      cases hgp : g u.slug with
      | error e => simpa using ih.cons u.slug
      | ok pt => simpa using List.Sublist.cons₂ u.slug ih

theorem download_file_task (H : List Nat → String)
    (net : String → Except String (List Nat)) (dcfg : DownloaderConfig)
    (fs : FS) (task : DownloadTask) :
    (download_file H net dcfg fs task).2.task = task := by
  rw [download_file]
  split
  · rfl
  · dsimp only
    split
    · split
      · split <;> rfl
      · rfl
    · rfl

theorem download_all_slugs (H : List Nat → String)
    (net : String → Except String (List Nat)) (dcfg : DownloaderConfig)
    (fs : FS) (tasks : List DownloadTask) :
    (download_all H net dcfg fs tasks).2.map (fun r => r.task.slug)
      = tasks.map (fun t => t.slug) := by
  induction tasks generalizing fs with
  | nil => rfl
  | cons t ts ih =>
    rw [download_all]
    dsimp only
    rw [List.map_cons, List.map_cons, download_file_task, ih]

theorem ledger_update_slugs (now : DateTime) (es : ExecState)
    (u : UpdateCheckResult) (project_type : ProjectType)
    (version_id slug final_path : String) (fs : FS) (backs : List String) :
    (∀ s, (ledger_update now es u project_type version_id slug final_path fs
        backs).2.1 = some s → s = slug)
    ∧ (∀ p, (ledger_update now es u project_type version_id slug final_path fs
        backs).2.2.1 = some p → p.1 = slug) := by
  rw [ledger_update]
  cases u.latest_file <;> dsimp only <;>
    exact ⟨fun s hs => by simp_all, fun p hp => by
      first
        | (simp_all; done)
        | (simp_all; exact congrArg Prod.fst hp.symm)⟩

theorem apply_step_placed_slugs (backupFail : String → Bool) (cfg : AppConfig)
    (ts : String) (now : DateTime) (backup : Bool) (es : ExecState)
    (u : UpdateCheckResult) (project_type : ProjectType)
    (version_id slug final_path : String) (fs1 : FS) :
    (∀ s, (apply_step_placed backupFail cfg ts now backup es u project_type
        version_id slug final_path fs1).2.1 = some s → s = slug)
    ∧ (∀ p, (apply_step_placed backupFail cfg ts now backup es u project_type
        version_id slug final_path fs1).2.2.1 = some p → p.1 = slug) := by
  rw [apply_step_placed]
  dsimp only
  split
  · split
    · split
      · split
        · exact ⟨fun s hs => by simp_all, fun p hp => by
      first
        | (simp_all; done)
        | (simp_all; exact congrArg Prod.fst hp.symm)⟩
        · apply ledger_update_slugs
      · apply ledger_update_slugs
    · apply ledger_update_slugs
  · apply ledger_update_slugs

theorem apply_step_slugs (backupFail : String → Bool) (cfg : AppConfig)
    (ts : String) (now : DateTime)
    (info : List (String × (UpdateCheckResult × ProjectType))) (backup : Bool)
    (es : ExecState) (r : DownloadResult) :
    (∀ s, (apply_step backupFail cfg ts now info backup es r).2.1 = some s →
      s = r.task.slug)
    ∧ (∀ p, (apply_step backupFail cfg ts now info backup es r).2.2.1 = some p →
      p.1 = r.task.slug) := by
  rw [apply_step]
  dsimp only
  split
  · exact ⟨fun s hs => by simp_all, fun p hp => by
      first
        | (simp_all; done)
        | (simp_all; exact congrArg Prod.fst hp.symm)⟩
  · split
    · exact ⟨fun s hs => by simp_all, fun p hp => by
      first
        | (simp_all; done)
        | (simp_all; exact congrArg Prod.fst hp.symm)⟩
    · split
      · exact ⟨fun s hs => by simp_all, fun p hp => by
      first
        | (simp_all; done)
        | (simp_all; exact congrArg Prod.fst hp.symm)⟩
      · split
        · exact ⟨fun s hs => by simp_all, fun p hp => by
      first
        | (simp_all; done)
        | (simp_all; exact congrArg Prod.fst hp.symm)⟩
        · split
          · exact ⟨fun s hs => by simp_all, fun p hp => by
      first
        | (simp_all; done)
        | (simp_all; exact congrArg Prod.fst hp.symm)⟩
          · apply apply_step_placed_slugs

theorem process_results_sublists (backupFail : String → Bool) (cfg : AppConfig)
    (ts : String) (now : DateTime)
    (info : List (String × (UpdateCheckResult × ProjectType))) (backup : Bool)
    (es : ExecState) (rs : List DownloadResult) :
    List.Sublist (process_results backupFail cfg ts now info backup es rs).2.1
      (rs.map (fun r => r.task.slug))
    ∧ List.Sublist
      ((process_results backupFail cfg ts now info backup es rs).2.2.1.map
        Prod.fst)
      (rs.map (fun r => r.task.slug)) := by
  induction rs generalizing es with
  | nil => exact ⟨by simp [process_results], by simp [process_results]⟩
  | cons r rest ih =>
    rcases hstep : apply_step backupFail cfg ts now info backup es r with
      ⟨es1, succ, fail, backs⟩
    rcases hrest : process_results backupFail cfg ts now info backup es1 rest
      with ⟨es2, succs, fails, moreB⟩
    rw [process_results, hstep]
    dsimp only
    rw [hrest]
    dsimp only
    have hih := ih es1
    rw [hrest] at hih
    dsimp only at hih
    have hslugs := apply_step_slugs backupFail cfg ts now info backup es r
    rw [hstep] at hslugs
    dsimp only at hslugs
    constructor
    · cases hsucc : succ with
      | none => simpa using hih.1.cons r.task.slug
      | some s =>
        have hse : s = r.task.slug := hslugs.1 s (by rw [hsucc])
        subst hse
        simpa using List.Sublist.cons₂ r.task.slug hih.1
    · cases hfail : fail with
      | none => simpa using hih.2.cons r.task.slug
      | some p =>
        have hpe : p.1 = r.task.slug := hslugs.2 p (by rw [hfail])
        have hmap : ((some p).toList ++ fails).map Prod.fst
            = p.1 :: fails.map Prod.fst := by simp
        rw [hmap, hpe]
        exact List.Sublist.cons₂ r.task.slug hih.2

/-- C9 (amended): the planned-update sequence preserves declaration order
(result i belongs to declaration i), and apply's successful list is an
input-order subsequence of the batch slugs; the failed list is the
concatenation of the pre-download failures (an input-order subsequence) and
the download/placement failures (an input-order subsequence) — but the two
groups are not interleaved by input position, so the failed list as a whole
need not be in input order (see the counterexample). -/
theorem c9_output_order
    (fetchVersions : String → Except String (List ProjectVersion))
    (pcfg : AppConfig) (pstate : StateFile) (projects : List ProjectConfig)
    (H : List Nat → String) (net : String → Except String (List Nat))
    (getProject : String → Except String ProjectType)
    (backupFail : String → Bool) (cfg : AppConfig) (ts : String)
    (now : DateTime) (fs0 : FS) (state0 : StateFile)
    (updates : List UpdateCheckResult) (backup : Bool) :
    (check_updates fetchVersions pcfg pstate projects).map (fun r => r.slug)
      = projects.map (fun p => p.slug)
    ∧ ∃ f1 f2,
      (apply_updates H net getProject backupFail cfg ts now fs0 state0 updates
          backup).result.failed = f1 ++ f2
      ∧ List.Sublist (f1.map Prod.fst) (updates.map (fun u => u.slug))
      ∧ List.Sublist (f2.map Prod.fst) (updates.map (fun u => u.slug))
      ∧ List.Sublist (apply_updates H net getProject backupFail cfg ts now fs0
          state0 updates backup).result.successful
          (updates.map (fun u => u.slug)) := by
  refine ⟨check_updates_order fetchVersions pcfg pstate projects, ?_⟩
  have hfilter_sub : List.Sublist ((updates.filter (fun u =>
      u.status == InstallStatus.not_installed
        || u.status == InstallStatus.outdated)).map (fun u => u.slug))
      (updates.map (fun u => u.slug)) :=
    (List.filter_sublist updates).map (fun u => u.slug)
  rw [apply_updates]
  dsimp only
  split
  · exact ⟨[], [], rfl, by simp, by simp, by simp⟩
  · split
    · refine ⟨(build_tasks getProject cfg (updates.filter (fun u =>
        u.status == InstallStatus.not_installed
          || u.status == InstallStatus.outdated))).failed, [], by simp, ?_,
        by simp, by simp⟩
      exact (build_tasks_failed_sublist getProject cfg _).trans hfilter_sub
    · rcases hdl : download_all H net
        { max_concurrent := cfg.max_concurrent_downloads,
          verify_hash := cfg.verify_hash } fs0
        (build_tasks getProject cfg (updates.filter (fun u =>
          u.status == InstallStatus.not_installed
            || u.status == InstallStatus.outdated))).tasks with
        ⟨fs1, dresults⟩
      dsimp only
      rcases hpr : process_results backupFail cfg ts now
        (build_tasks getProject cfg (updates.filter (fun u =>
          u.status == InstallStatus.not_installed
            || u.status == InstallStatus.outdated))).info backup
        ⟨fs1, state0, false⟩ dresults with ⟨es, succs, fails, backs⟩
      dsimp only
      have hps := process_results_sublists backupFail cfg ts now
        (build_tasks getProject cfg (updates.filter (fun u =>
          u.status == InstallStatus.not_installed
            || u.status == InstallStatus.outdated))).info backup
        ⟨fs1, state0, false⟩ dresults
      rw [hpr] at hps
      dsimp only at hps
      have hds : dresults.map (fun r => r.task.slug)
          = (build_tasks getProject cfg (updates.filter (fun u =>
            u.status == InstallStatus.not_installed
              || u.status == InstallStatus.outdated))).tasks.map
            (fun t => t.slug) := by
        have h := download_all_slugs H net
          { max_concurrent := cfg.max_concurrent_downloads,
            verify_hash := cfg.verify_hash } fs0
          (build_tasks getProject cfg (updates.filter (fun u =>
            u.status == InstallStatus.not_installed
              || u.status == InstallStatus.outdated))).tasks
        rw [hdl] at h
        exact h
      have htasks_sub := (build_tasks_tasks_slugs getProject cfg
        (updates.filter (fun u => u.status == InstallStatus.not_installed
          || u.status == InstallStatus.outdated))).trans hfilter_sub
      refine ⟨(build_tasks getProject cfg (updates.filter (fun u =>
        u.status == InstallStatus.not_installed
          || u.status == InstallStatus.outdated))).failed, fails, rfl,
        (build_tasks_failed_sublist getProject cfg _).trans hfilter_sub,
        ?_, ?_⟩
      · have h2 := hps.2
        rw [hds] at h2
        exact h2.trans htasks_sub
      · have h1 := hps.1
        rw [hds] at h1
        exact h1.trans htasks_sub

/-- a batch entry for slug "a" whose download will fail -/
def c9UA : UpdateCheckResult :=
  { slug := "a", status := .outdated, current_version := none,
    current_file := none, latest_version := some "1",
    latest_version_id := some "vA", latest_file := some c5FA, error := none }

/-- a batch entry for slug "b" with no resolvable target file -/
def c9UB : UpdateCheckResult :=
  { slug := "b", status := .not_installed, current_version := none,
    current_file := none, latest_version := none,
    latest_version_id := none, latest_file := none, error := none }

/-- C9 counterexample: with input order [a, b], b's pre-download failure is
recorded before a's download failure, so apply's failed list is [b, a] — not
the input declaration order. -/
theorem c9_counterexample :
    (apply_updates (fun _ => "h") c5Net (fun _ => .ok ProjectType.mod)
        (fun _ => false) sampleCfg "t" sampleDT [] sampleState [c9UA, c9UB]
        false).result.failed.map Prod.fst = ["b", "a"]
    ∧ ([c9UA, c9UB].map (fun u => u.slug)) = ["a", "b"]
    ∧ (["b", "a"] : List String) ≠ ["a", "b"] := by
  refine ⟨by decide, by decide, by decide⟩

/-! ### C6: ledger save/load round trip

`_save_state` writes `{"version": ..., "files": {slug: record}}` via
`json.dump` of `model_dump(mode="json")`; `_load_state` reads it back via
`json.load`, converts `file_path`/`project_type` and runs
`InstalledFile.model_validate`.  `json.dump`/`json.load` round-trip the
document tree and preserve dict insertion order, so the document is modelled
as a tree (`StateDoc`), not as text. -/

/-- the value of a decimal digit character -/
def digitVal (c : Char) : Option Nat :=
  if '0' ≤ c ∧ c ≤ '9' then some (c.toNat - 48) else none

def parse2 (a b : Char) : Option Nat := do
  let x ← digitVal a
  let y ← digitVal b
  pure (10 * x + y)

def parse4 (a b c d : Char) : Option Nat := do
  let x ← digitVal a
  let y ← digitVal b
  let z ← digitVal c
  let w ← digitVal d
  pure (1000 * x + 100 * y + 10 * z + w)

/-- two-digit zero-padded rendering (`%02d`) -/
def pad2chars (n : Nat) : List Char :=
  [Nat.digitChar (n / 10 % 10), Nat.digitChar (n % 10)]

/-- four-digit zero-padded rendering (`%04d`) -/
def pad4chars (n : Nat) : List Char :=
  [Nat.digitChar (n / 1000 % 10), Nat.digitChar (n / 100 % 10),
   Nat.digitChar (n / 10 % 10), Nat.digitChar (n % 10)]

/-- the fields datetime restricts to its documented ranges; what the codec
needs is each field fitting its zero-padded width -/
def DateTime.valid (d : DateTime) : Prop :=
  d.year < 10000 ∧ d.month < 100 ∧ d.day < 100 ∧ d.hour < 100
    ∧ d.minute < 100 ∧ d.second < 100

instance (d : DateTime) : Decidable d.valid := by
  unfold DateTime.valid
  infer_instance

/-- Modelled from the spec: pydantic's JSON serialisation of a tz-aware UTC
`datetime` (`installed_at` "ISO-8601"), `YYYY-MM-DDTHH:MM:SS+00:00`.  The
pydantic codec itself is library code outside src/. -/
def DateTime.isoformat (d : DateTime) : String :=
  String.mk (pad4chars d.year ++ '-' :: pad2chars d.month ++ '-'
    :: pad2chars d.day ++ 'T' :: pad2chars d.hour ++ ':'
    :: pad2chars d.minute ++ ':' :: pad2chars d.second
    ++ ['+', '0', '0', ':', '0', '0'])

/-- Modelled from the spec: pydantic's datetime validation applied to the
shape `isoformat` produces; anything else is a validation error (`none`). -/
def DateTime.fromIso? (s : String) : Option DateTime :=
  match s.data with
  | y1 :: y2 :: y3 :: y4 :: c1 :: m1 :: m2 :: c2 :: d1 :: d2 :: c3 :: h1 :: h2
      :: c4 :: i1 :: i2 :: c5 :: s1 :: s2 :: rest =>
    if c1 = '-' ∧ c2 = '-' ∧ c3 = 'T' ∧ c4 = ':' ∧ c5 = ':'
        ∧ rest = ['+', '0', '0', ':', '0', '0'] then do
      let y ← parse4 y1 y2 y3 y4
      let mo ← parse2 m1 m2
      let da ← parse2 d1 d2
      let ho ← parse2 h1 h2
      let mi ← parse2 i1 i2
      let se ← parse2 s1 s2
      pure ⟨y, mo, da, ho, mi, se⟩
    else none
  | _ => none

theorem digitVal_digitChar : ∀ k, k < 10 → digitVal (Nat.digitChar k) = some k := by
  decide

theorem parse2_pad2 (n : Nat) (hn : n < 100) :
    parse2 (Nat.digitChar (n / 10 % 10)) (Nat.digitChar (n % 10)) = some n := by
  have h1 := digitVal_digitChar (n / 10 % 10) (Nat.mod_lt _ (by omega))
  have h2 := digitVal_digitChar (n % 10) (Nat.mod_lt _ (by omega))
  rw [parse2, h1, h2]
  show some (10 * (n / 10 % 10) + n % 10) = some n
  rw [show 10 * (n / 10 % 10) + n % 10 = n from by omega]

theorem parse4_pad4 (n : Nat) (hn : n < 10000) :
    parse4 (Nat.digitChar (n / 1000 % 10)) (Nat.digitChar (n / 100 % 10))
      (Nat.digitChar (n / 10 % 10)) (Nat.digitChar (n % 10)) = some n := by
  have h1 := digitVal_digitChar (n / 1000 % 10) (Nat.mod_lt _ (by omega))
  have h2 := digitVal_digitChar (n / 100 % 10) (Nat.mod_lt _ (by omega))
  have h3 := digitVal_digitChar (n / 10 % 10) (Nat.mod_lt _ (by omega))
  have h4 := digitVal_digitChar (n % 10) (Nat.mod_lt _ (by omega))
  rw [parse4, h1, h2, h3, h4]
  show some (1000 * (n / 1000 % 10) + 100 * (n / 100 % 10) + 10 * (n / 10 % 10)
    + n % 10) = some n
  rw [show 1000 * (n / 1000 % 10) + 100 * (n / 100 % 10) + 10 * (n / 10 % 10)
    + n % 10 = n from by omega]

theorem fromIso_isoformat (d : DateTime) (hd : d.valid) :
    DateTime.fromIso? d.isoformat = some d := by
  obtain ⟨hy, hmo, hda, hho, hmi, hse⟩ := hd
  obtain ⟨y, mo, da, ho, mi, se⟩ := d
  simp only [DateTime.isoformat, pad4chars, pad2chars, List.cons_append,
    List.nil_append]
  rw [DateTime.fromIso?]
  dsimp only
  rw [if_pos (by exact ⟨rfl, rfl, rfl, rfl, rfl, rfl⟩)]
  simp only [parse4_pad4 y hy, parse2_pad2 mo hmo, parse2_pad2 da hda,
    parse2_pad2 ho hho, parse2_pad2 mi hmi, parse2_pad2 se hse,
    Option.some_bind, Option.pure_def]
  rfl

/-- one serialised record: every leaf a string, as produced by
`InstalledFile.model_dump(mode="json")` -/
structure RecordDoc where
  slug : String
  project_type : String
  filename : String
  version_id : String
  version_number : String
  sha512 : String
  installed_at : String
  file_path : String
deriving DecidableEq, Repr

/-- the persisted ledger document tree -/
structure StateDoc where
  version : Nat
  files : List (String × RecordDoc)
deriving DecidableEq, Repr

/-- `file.model_dump(mode="json")` for an InstalledFile: enum → value,
Path → str, datetime → ISO string -/
def dump_installed (f : InstalledFile) : RecordDoc :=
  { slug := f.slug, project_type := f.project_type.value,
    filename := f.filename, version_id := f.version_id,
    version_number := f.version_number, sha512 := f.sha512,
    installed_at := f.installed_at.isoformat, file_path := f.file_path }

/-- the document `_save_state` writes for a StateFile -/
def save_state_doc (st : StateFile) : StateDoc :=
  { version := st.version,
    files := st.files.map (fun e => (e.1, dump_installed e.2)) }

/-- the per-record conversion in `_load_state` (Path(...), ProjectType(...))
followed by `InstalledFile.model_validate`; a bad enum value or datetime is a
ValueError/ValidationError, which `_load_state` wraps in StateFileError -/
def parse_installed (r : RecordDoc) : Except String InstalledFile :=
  match ProjectType.ofValue? r.project_type with
  | none => .error ("Failed to parse state file: bad project_type "
      ++ r.project_type)
  | some pt =>
    match DateTime.fromIso? r.installed_at with
    | none => .error ("Failed to parse state file: bad installed_at "
        ++ r.installed_at)
    | some dt =>
      .ok { slug := r.slug, project_type := pt, filename := r.filename,
            version_id := r.version_id, version_number := r.version_number,
            sha512 := r.sha512, installed_at := dt, file_path := r.file_path }

/-- the `for slug, file_data in data.get("files", {}).items()` loop -/
def load_files : List (String × RecordDoc) →
    Except String (List (String × InstalledFile))
  | [] => .ok []
  | (slug, r) :: rest =>
    match parse_installed r with
    | .error e => .error e
    | .ok f =>
      match load_files rest with
      | .error e => .error e
      | .ok fs => .ok ((slug, f) :: fs)

/-- `_load_state` applied to an existing (already JSON-parsed) document -/
def load_state_doc (doc : StateDoc) : Except String StateFile :=
  match load_files doc.files with
  | .error e => .error e
  | .ok fs => .ok { version := doc.version, files := fs }

theorem parse_dump_installed (f : InstalledFile) (hf : f.installed_at.valid) :
    parse_installed (dump_installed f) = .ok f := by
  have hpt : ProjectType.ofValue? f.project_type.value = some f.project_type := by
    cases f.project_type <;> rfl
  rw [parse_installed]
  simp only [dump_installed, hpt, fromIso_isoformat f.installed_at hf]

theorem load_files_dump (files : List (String × InstalledFile))
    (hvalid : ∀ e, e ∈ files → (e.2 : InstalledFile).installed_at.valid) :
    load_files (files.map (fun e => (e.1, dump_installed e.2))) = .ok files := by
  induction files with
  | nil => rfl
  | cons e rest ih =>
    obtain ⟨slug, f⟩ := e
    have hf : f.installed_at.valid := hvalid (slug, f) (by simp)
    simp only [List.map_cons, load_files, parse_dump_installed f hf]
    rw [ih (fun x hx => hvalid x (List.mem_cons_of_mem _ hx))]

/-- C6: saving a well-formed ledger and loading the document back yields a
ledger equal in content to the original — any number of entries, every
InstalledFileRecord field round-tripping (enum via its value string, path via
its string form, datetime via its ISO form). -/
theorem c6_state_round_trip (st : StateFile)
    (hvalid : ∀ e, e ∈ st.files → (e.2 : InstalledFile).installed_at.valid) :
    load_state_doc (save_state_doc st) = .ok st := by
  obtain ⟨ver, files⟩ := st
  rw [load_state_doc]
  simp only [save_state_doc]
  rw [load_files_dump files hvalid]

theorem c6_state_round_trip_witness :
    load_state_doc (save_state_doc sampleState) = .ok sampleState
    ∧ load_state_doc (save_state_doc
        { version := 1,
          files := [("x", sampleInstalled), ("y", c5NewRec)] })
      = .ok { version := 1,
              files := [("x", sampleInstalled), ("y", c5NewRec)] }
    ∧ load_state_doc (save_state_doc { version := 1, files := [] })
      = .ok { version := 1, files := [] } := by
  refine ⟨c6_state_round_trip sampleState (by decide), ?_, ?_⟩
  · exact c6_state_round_trip _ (by decide)
  · exact c6_state_round_trip _ (by decide)

end Mcpax
